import Mathlib

/-!
Shallow embedding of the payroll-agent repository's core:
the reason-classifier fallback (`_analyze_reason_with_llm`), the anomaly
detectors (`analyze_timesheets`, `get_employee_summary`), the engagement
case table (`employee_engagement_agent.py`), and the mailbox poller
(`email_monitor_service.py`).  Machine strings are modelled as Lean
`String`/`List Char`; Python floats that only ever hold exact decimal
hour values are modelled as `ℚ`; Python dicts keyed by `"{email}_{date}"`
strings are modelled as insertion-ordered association lists.
-/

/-! ### Python string primitives -/

/-- Drop leading whitespace characters, as Python `str.strip` does on one end. -/
def dropLeadingWs : List Char → List Char
  | [] => []
  | c :: t => if c.isWhitespace then dropLeadingWs t else c :: t

/-- Python `content.strip()`: whitespace removed from both ends. -/
def pyStrip (l : List Char) : List Char :=
  ((dropLeadingWs ((dropLeadingWs l).reverse)).reverse)

/-- Python `str.lower()` (ASCII is all the source ever feeds it). -/
def pyLower (s : String) : List Char := s.toList.map Char.toLower

/-- Does `needle` occur at the head of `haystack`? -/
def leadsChars : List Char → List Char → Bool
  | [], _ => true
  | _ :: _, [] => false
  | a :: as, b :: bs => a == b && leadsChars as bs

/-- Python `needle in haystack` substring test, on character lists. -/
def containsChars (needle : List Char) : List Char → Bool
  | [] => needle.isEmpty
  | h :: t => leadsChars needle (h :: t) || containsChars needle t

/-- Python `needle in haystack` on strings. -/
def pyContains (needle : String) (haystack : List Char) : Bool :=
  containsChars needle.toList haystack

/-! ### Reason classifier (`_analyze_reason_with_llm`)

The function appears verbatim in both `employee_engagement_agent.py` and
`background_monitor_agent.py`.  The external LLM call's outcome is a free
parameter of the embedding: it raised, or returned text without a JSON
object, or returned a parsed analysis dict. -/

/-- The analysis dict returned by `_analyze_reason_with_llm`
(`suggested_keywords` carried as a list of strings). -/
structure ReasonAnalysis where
  is_valid : Bool
  reason_type : String
  confidence : Nat
  explanation : String
  requires_approval : Bool
  suggested_keywords : List String
deriving DecidableEq

/-- Outcome of the external LLM call inside `_analyze_reason_with_llm`. -/
inductive LlmOutcome where
  | raised
  | noJsonMatch
  | parsed (analysis : ReasonAnalysis)

/-- Embedding of `_analyze_reason_with_llm(content)` given the LLM outcome:
a parsed JSON object is returned as-is; a response with no JSON object hits
the first fallback (length and "forgot" checks, confidence 50); an exception
hits the second fallback (length check only, confidence 30). -/
def analyzeReasonWithLlm (o : LlmOutcome) (content : String) : ReasonAnalysis :=
  match o with
  | .parsed analysis => analysis
  | .noJsonMatch =>
      { is_valid := decide (10 < (pyStrip content.toList).length)
          && !(pyContains "forgot" (pyLower content)),
        reason_type := "other", confidence := 50,
        explanation := "Fallback analysis",
        requires_approval := true, suggested_keywords := [] }
  | .raised =>
      { is_valid := decide (10 < (pyStrip content.toList).length),
        reason_type := "other", confidence := 30,
        explanation := "Analysis failed, using fallback",
        requires_approval := true, suggested_keywords := [] }

/-! ### Anomaly detection (`tools.analyze_timesheets`, `csv_repository.get_employee_summary`) -/

/-- A row of the timesheet store (hours as exact rationals). -/
structure TimesheetEntry where
  employee_id : String
  employee_name : String
  employee_email : String
  date : String
  hours_worked : ℚ
deriving DecidableEq

/-- A detected anomaly (the human-readable `description` f-string is
presentation only and is not modelled). -/
structure TimesheetAnomaly where
  employee_id : String
  employee_name : String
  employee_email : String
  date : String
  expected_hours : ℚ
  actual_hours : ℚ
  anomaly_type : String
  severity : String
deriving DecidableEq

/-- Per-record body of the loop in `tools.analyze_timesheets`:
`hours_worked < 8` flags `missing_hours` (severity `high` when `< 4`, else
`medium`); `elif hours_worked > 12` flags `excessive_hours` (`medium`);
otherwise no anomaly. -/
def anomalyForEntry (ts : TimesheetEntry) : Option TimesheetAnomaly :=
  if ts.hours_worked < 8 then
    some { employee_id := ts.employee_id, employee_name := ts.employee_name,
           employee_email := ts.employee_email, date := ts.date,
           expected_hours := 8, actual_hours := ts.hours_worked,
           anomaly_type := "missing_hours",
           severity := if ts.hours_worked < 4 then "high" else "medium" }
  else if 12 < ts.hours_worked then
    some { employee_id := ts.employee_id, employee_name := ts.employee_name,
           employee_email := ts.employee_email, date := ts.date,
           expected_hours := 8, actual_hours := ts.hours_worked,
           anomaly_type := "excessive_hours", severity := "medium" }
  else none

/-- `tools.analyze_timesheets` over a batch of records (the by-employee
grouping only affects report formatting, not which anomalies exist). -/
def analyzeTimesheets (l : List TimesheetEntry) : List TimesheetAnomaly :=
  l.filterMap anomalyForEntry

/-- Per-record anomaly of `csv_repository.get_employee_summary`:
`hours_worked < settings.app.anomaly_threshold_hours` flags `missing_hours`
with `severity = "medium" if ts.hours_worked > 4 else "high"` (the
half-threshold `4` is hard-coded). -/
def summaryAnomalyForEntry (threshold : ℚ) (ts : TimesheetEntry) :
    Option TimesheetAnomaly :=
  if ts.hours_worked < threshold then
    some { employee_id := ts.employee_id, employee_name := ts.employee_name,
           employee_email := ts.employee_email, date := ts.date,
           expected_hours := threshold, actual_hours := ts.hours_worked,
           anomaly_type := "missing_hours",
           severity := if 4 < ts.hours_worked then "medium" else "high" }
  else none

/-- Default `AppConfig.anomaly_threshold_hours`. -/
def anomalyThresholdHours : ℚ := 8

/-! ### Claims C1, C3, C7 -/

/-- C1, counterexample: on an LLM exception the fallback validates
"I forgot to log my hours" (trimmed length 24 > 10) even though it contains
the token "forgot", so the claimed `valid = long AND no-forgot` law is false
for the raise/timeout fallback. -/
theorem c1_forgot_ignored_on_exception :
    (analyzeReasonWithLlm .raised "I forgot to log my hours").is_valid = true
    ∧ pyContains "forgot" (pyLower "I forgot to log my hours") = true
    ∧ (analyzeReasonWithLlm .raised "I forgot to log my hours").confidence = 30 := by
  refine ⟨?_, ?_, rfl⟩ <;> decide

/-- C1, amended: when the external call raises or times out, the fallback
verdict is valid exactly when the trimmed text is longer than 10 characters
(no "forgot" test on this path), with confidence 30, reason type "other"
and requires_approval true; the "forgot" token test belongs to the
no-JSON-object fallback, whose confidence is 50. -/
theorem c1_exception_fallback (content : String) :
    ((analyzeReasonWithLlm .raised content).is_valid = true
      ↔ 10 < (pyStrip content.toList).length)
    ∧ (analyzeReasonWithLlm .raised content).confidence = 30
    ∧ (analyzeReasonWithLlm .raised content).reason_type = "other"
    ∧ (analyzeReasonWithLlm .raised content).requires_approval = true
    ∧ (analyzeReasonWithLlm .raised content).is_valid
        = decide (10 < (pyStrip content.toList).length)
    ∧ (analyzeReasonWithLlm .noJsonMatch content).is_valid
        = (decide (10 < (pyStrip content.toList).length)
            && !(pyContains "forgot" (pyLower content)))
    ∧ (analyzeReasonWithLlm .noJsonMatch content).confidence = 50 := by
  refine ⟨?_, rfl, rfl, rfl, rfl, rfl, rfl⟩
  simp [analyzeReasonWithLlm]

/-- C3, counterexample: at `hours_worked = 4` (exactly `minHours/2` for the
default threshold 8), `get_employee_summary` emits severity `high`, while the
claim requires `medium` there; `analyze_timesheets` emits `medium` on the
same record. -/
theorem c3_boundary_mismatch :
    ((summaryAnomalyForEntry anomalyThresholdHours
        ⟨"E1", "N", "n@x", "2025-08-08", 4⟩).map (·.severity)) = some "high"
    ∧ ((anomalyForEntry ⟨"E1", "N", "n@x", "2025-08-08", 4⟩).map (·.severity))
        = some "medium"
    ∧ ¬ ((4 : ℚ) < anomalyThresholdHours / 2) := by
  refine ⟨by decide, by decide, ?_⟩
  rw [anomalyThresholdHours]
  norm_num

/-- C3, amended: for a record flagged as `missing_hours`, the severity of
`analyze_timesheets` is `high` iff `hours_worked < 4` (equality with 4 gives
`medium`), while the severity of `get_employee_summary` (default threshold 8)
is `high` iff `hours_worked ≤ 4` (equality with 4 gives `high`). -/
theorem c3_severity_rules (ts : TimesheetEntry) (h : ts.hours_worked < 8) :
    (∀ a, anomalyForEntry ts = some a →
      a.anomaly_type = "missing_hours"
      ∧ (a.severity = "high" ↔ ts.hours_worked < 4)
      ∧ (a.severity = "medium" ↔ ¬ ts.hours_worked < 4))
    ∧ (∀ a, summaryAnomalyForEntry anomalyThresholdHours ts = some a →
      a.anomaly_type = "missing_hours"
      ∧ (a.severity = "high" ↔ ts.hours_worked ≤ 4)
      ∧ (a.severity = "medium" ↔ ¬ ts.hours_worked ≤ 4)) := by
  constructor
  · intro a ha
    rw [anomalyForEntry, if_pos h] at ha
    cases ha
    by_cases h4 : ts.hours_worked < 4 <;> simp [h4]
  · intro a ha
    rw [summaryAnomalyForEntry, if_pos (show ts.hours_worked < anomalyThresholdHours from h)] at ha
    cases ha
    by_cases h4 : (4 : ℚ) < ts.hours_worked
    · simp [if_pos h4, not_le.mpr h4]
    · simp [if_neg h4, not_lt.mp h4]

/-- C3, witness for the amended severity rules at `hours_worked = 3`. -/
theorem c3_severity_rules_witness :
    (3 : ℚ) < 8
    ∧ ((∀ a, anomalyForEntry ⟨"E1", "N", "n@x", "d", 3⟩ = some a →
      a.anomaly_type = "missing_hours"
      ∧ (a.severity = "high" ↔ (3 : ℚ) < 4)
      ∧ (a.severity = "medium" ↔ ¬ (3 : ℚ) < 4))
    ∧ (∀ a, summaryAnomalyForEntry anomalyThresholdHours ⟨"E1", "N", "n@x", "d", 3⟩ = some a →
      a.anomaly_type = "missing_hours"
      ∧ (a.severity = "high" ↔ (3 : ℚ) ≤ 4)
      ∧ (a.severity = "medium" ↔ ¬ (3 : ℚ) ≤ 4))) :=
  ⟨by decide, c3_severity_rules ⟨"E1", "N", "n@x", "d", 3⟩ (by decide)⟩

/-- C7: a record whose hours lie in the closed interval `[8, 12]`
(`minHours = 8`, `maxHours = 12` in `analyze_timesheets`) produces no
anomaly; in particular the boundary values 8 and 12 are never anomalous,
both comparisons being strict. -/
theorem c7_strict_boundaries (ts : TimesheetEntry)
    (h1 : 8 ≤ ts.hours_worked) (h2 : ts.hours_worked ≤ 12) :
    anomalyForEntry ts = none := by
  rw [anomalyForEntry, if_neg (not_lt.mpr h1), if_neg (not_lt.mpr h2)]

/-- C7, witness at the lower boundary `hours_worked = 8`. -/
theorem c7_strict_boundaries_witness :
    (8 : ℚ) ≤ 8 ∧ (8 : ℚ) ≤ 12
    ∧ anomalyForEntry ⟨"E1", "N", "n@x", "d", 8⟩ = none :=
  ⟨by decide, by decide,
    c7_strict_boundaries ⟨"E1", "N", "n@x", "d", 8⟩ (by decide) (by decide)⟩

/-! ### Mailbox poller (`email_monitor_service.py`) -/

/-- The `EmailMessage` dataclass (dates abstracted to `Nat` timestamps). -/
structure EmailMessageM where
  message_id : String
  from_email : String
  from_name : String
  subject : String
  content : String
  received_date : Nat
  is_reply : Bool
  timesheet_date : Option String
deriving DecidableEq

/-- Mutable fields of `EmailMonitorService`.  `processed_messages` is a
Python `set` of message ids; the model keeps its elements in insertion
order (the order in which `add` was called), and every operation that
depends on the set's unspecified iteration order takes that order as an
explicit `enum` parameter. -/
structure PollerState where
  monitoring_active : Bool
  processed_messages : List String
  check_count : Nat
  check_interval : Nat
  last_check_time : Option Nat
deriving DecidableEq

/-- `EmailMonitorService.__init__`. -/
def initPoller : PollerState :=
  { monitoring_active := false, processed_messages := [],
    check_count := 0, check_interval := 60, last_check_time := none }

/-- The dedup loop of `check_for_replies`: walk the fetched batch in order;
a reply whose `message_id` is already in `processed_messages` is skipped,
otherwise it is appended to `new_replies` and its id added to the set
immediately.  Returns (new_replies, updated seen-set in insertion order). -/
def filterNew : List EmailMessageM → List String → List EmailMessageM × List String
  | [], seen => ([], seen)
  | m :: rest, seen =>
    if m.message_id ∈ seen then filterNew rest seen
    else (m :: (filterNew rest (seen ++ [m.message_id])).1,
          (filterNew rest (seen ++ [m.message_id])).2)

/-- Python `list(s)[-50:]` once an enumeration order for the set is fixed. -/
def lastFifty (l : List String) : List String := l.drop (l.length - 50)

/-- Embedding of `check_for_replies`.  `fetched` is the outcome of
`_simulate_email_check` (`.error` when it raised, in which case the
enclosing `except` returns `[]` and the state is untouched).  `enum` is the
iteration order Python uses for the `processed_messages` set at the pruning
step (`set(list(...)[-50:])`); it is a permutation chosen by the runtime,
not by the code.  `cbRaises` tells which message ids make the reply
callback raise inside `_process_reply`; that exception is caught there, so
neither the returned list nor the state depends on it. -/
def checkForReplies (enum : List String → List String) (cbRaises : String → Bool)
    (st : PollerState) (fetched : Except Unit (List EmailMessageM)) (now : Nat) :
    PollerState × List EmailMessageM :=
  match fetched with
  | .error _ => (st, [])
  | .ok allReplies =>
    let pair := filterNew allReplies st.processed_messages
    let cc := st.check_count + 1
    let pruned :=
      if cc % 10 = 0 ∧ 100 < pair.2.length then lastFifty (enum pair.2) else pair.2
    ({ st with processed_messages := pruned, check_count := cc,
               last_check_time := some now }, pair.1)

/-- Several consecutive poll cycles: thread the state through
`check_for_replies` and concatenate the forwarded (new) replies. -/
def runCycles (enum : List String → List String) (cbRaises : String → Bool) :
    PollerState → List (Except Unit (List EmailMessageM)) →
    PollerState × List EmailMessageM
  | st, [] => (st, [])
  | st, c :: rest =>
    ((runCycles enum cbRaises (checkForReplies enum cbRaises st c 0).1 rest).1,
     (checkForReplies enum cbRaises st c 0).2
       ++ (runCycles enum cbRaises (checkForReplies enum cbRaises st c 0).1 rest).2)

/-- The `while self.monitoring_active` loop of `start_monitoring`.  Each
script entry is (outcome of that cycle's body, whether `stop_monitoring`
ran during the following sleep).  A cycle body that raises is caught by the
inner `except`, which sleeps and continues; only the flag ends the loop,
checked at the iteration boundary.  Returns the final state and the number
of cycles executed before the loop exited or the script ran out. -/
def monitorLoop (enum : List String → List String) (cbRaises : String → Bool) :
    PollerState → List (Except Unit (List EmailMessageM) × Bool) →
    PollerState × Nat
  | st, [] => (st, 0)
  | st, (c, stopReq) :: rest =>
    if st.monitoring_active then
      ((monitorLoop enum cbRaises
        (if stopReq then
          { (checkForReplies enum cbRaises st c 0).1 with monitoring_active := false }
         else (checkForReplies enum cbRaises st c 0).1) rest).1,
       (monitorLoop enum cbRaises
        (if stopReq then
          { (checkForReplies enum cbRaises st c 0).1 with monitoring_active := false }
         else (checkForReplies enum cbRaises st c 0).1) rest).2 + 1)
    else (st, 0)

/-- Cycles a loop run executes, read off the stop requests alone:
everything up to and including the cycle during which `stop` is requested,
or the whole script when no stop ever arrives. -/
def cyclesUntilStop : List (Except Unit (List EmailMessageM) × Bool) → Nat
  | [] => 0
  | (_, stopReq) :: rest => if stopReq then 1 else cyclesUntilStop rest + 1

/-- The agent-side view for C8: the poller plus the number of
`start_monitoring` loop tasks that have been spawned
(`asyncio.create_task(self.email_monitor.start_monitoring())`). -/
structure AgentMonitorState where
  poller : PollerState
  monitor_tasks : Nat
deriving DecidableEq

/-- `_check_email_replies_impl`: spawns a monitoring task only when
`monitoring_active` is false (the spawned loop immediately sets the flag);
when monitoring is already active it just reports the current status.  The
returned Bool records whether a new task was started. -/
def checkEmailRepliesImpl (st : AgentMonitorState) : AgentMonitorState × Bool :=
  if !st.poller.monitoring_active then
    ({ poller := { st.poller with monitoring_active := true },
       monitor_tasks := st.monitor_tasks + 1 }, true)
  else (st, false)

/-- `_start_email_monitoring_impl`: unconditionally spawns a new
`start_monitoring` task (which sets `monitoring_active`), with no check of
whether one is already running. -/
def startEmailMonitoringImpl (st : AgentMonitorState) : AgentMonitorState :=
  { poller := { st.poller with monitoring_active := true },
    monitor_tasks := st.monitor_tasks + 1 }

/-! ### Claims C6, C8, C9 -/

/-- Seen-set of 101 ids `m0 … m100`, inserted in that order. -/
def mIds : List String := (List.range 101).map (fun i => "m" ++ Nat.repr i)

/-- C6: at a bookkeeping point with 101 seen entries and `check_count`
becoming 10, the prune keeps `list(processed_messages)[-50:]` for whatever
iteration order the Python set happens to have.  Under a reversed
enumeration the 50 ids kept are the 50 *oldest*: the earliest id `m0` is
retained and the most recent id `m100` is discarded, so the pruned set is
not the 50 most recently added. -/
theorem c6_prune_not_most_recent :
    ((checkForReplies List.reverse (fun _ => false)
        { initPoller with processed_messages := mIds, check_count := 9 }
        (.ok []) 0).1.processed_messages).length = 50
    ∧ "m0" ∈ (checkForReplies List.reverse (fun _ => false)
        { initPoller with processed_messages := mIds, check_count := 9 }
        (.ok []) 0).1.processed_messages
    ∧ "m100" ∉ (checkForReplies List.reverse (fun _ => false)
        { initPoller with processed_messages := mIds, check_count := 9 }
        (.ok []) 0).1.processed_messages := by
  refine ⟨?_, ?_, ?_⟩ <;> decide

/-- C8, counterexample: with monitoring already active and one loop task
running, `_start_email_monitoring_impl` spawns a second polling loop
rather than being a no-op. -/
theorem c8_start_spawns_second_loop :
    (startEmailMonitoringImpl
      { poller := { initPoller with monitoring_active := true },
        monitor_tasks := 1 }).monitor_tasks = 2 := by
  decide

/-- C8, amended: while monitoring is already running,
`_check_email_replies_impl` is a no-op that reports status (state identical,
no task spawned), but `_start_email_monitoring_impl` always spawns one more
monitoring task, leaving the flag, seen-set and interval values unchanged. -/
theorem c8_idempotence_split (st : AgentMonitorState)
    (h : st.poller.monitoring_active = true) :
    checkEmailRepliesImpl st = (st, false)
    ∧ (startEmailMonitoringImpl st).monitor_tasks = st.monitor_tasks + 1
    ∧ (startEmailMonitoringImpl st).poller = st.poller := by
  refine ⟨?_, rfl, ?_⟩
  · rw [checkEmailRepliesImpl, h]
    simp
  · show { st.poller with monitoring_active := true } = st.poller
    cases hp : st.poller
    rw [hp] at h
    simp_all

/-- C8, witness for the amended idempotence statement. -/
theorem c8_idempotence_split_witness :
    ({ poller := { initPoller with monitoring_active := true },
       monitor_tasks := 1 } : AgentMonitorState).poller.monitoring_active = true
    ∧ (checkEmailRepliesImpl
        { poller := { initPoller with monitoring_active := true }, monitor_tasks := 1 }
        = ({ poller := { initPoller with monitoring_active := true }, monitor_tasks := 1 }, false)
      ∧ (startEmailMonitoringImpl
          { poller := { initPoller with monitoring_active := true }, monitor_tasks := 1 }).monitor_tasks
          = 1 + 1
      ∧ (startEmailMonitoringImpl
          { poller := { initPoller with monitoring_active := true }, monitor_tasks := 1 }).poller
          = ({ poller := { initPoller with monitoring_active := true }, monitor_tasks := 1 } : AgentMonitorState).poller) :=
  ⟨rfl, c8_idempotence_split _ rfl⟩

/-- Helper: one cycle body never touches the `monitoring_active` flag. -/
theorem checkForReplies_active (enum : List String → List String)
    (cbRaises : String → Bool) (st : PollerState)
    (c : Except Unit (List EmailMessageM)) (now : Nat) :
    ((checkForReplies enum cbRaises st c now).1).monitoring_active
      = st.monitoring_active := by
  cases c <;> rfl

/-- C9: starting from an active poller, the number of cycles the monitor
loop executes is a function of the stop requests alone — per-cycle fetch or
processing errors (`.error` outcomes) never end the loop — and the loop is
still live at the end of the script exactly when no stop was ever
requested; a requested stop is observed at the next iteration boundary,
after the cycle it arrived in has completed. -/
theorem c9_only_stop_ends_loop (enum : List String → List String)
    (cbRaises : String → Bool) (st : PollerState)
    (script : List (Except Unit (List EmailMessageM) × Bool))
    (h : st.monitoring_active = true) :
    (monitorLoop enum cbRaises st script).2 = cyclesUntilStop script
    ∧ ((monitorLoop enum cbRaises st script).1.monitoring_active
        = !(script.any (·.2))) := by
  induction script generalizing st with
  | nil => simp [monitorLoop, cyclesUntilStop, h]
  | cons p rest ih =>
    obtain ⟨c, stopReq⟩ := p
    rw [monitorLoop, if_pos h]
    cases stopReq with
    | true =>
      have hstop : (monitorLoop enum cbRaises
          { (checkForReplies enum cbRaises st c 0).1 with monitoring_active := false }
          rest) = ({ (checkForReplies enum cbRaises st c 0).1 with
              monitoring_active := false }, 0) := by
        cases rest with
        | nil => rfl
        | cons q r => rw [monitorLoop]; simp
      simp [hstop, cyclesUntilStop]
    | false =>
      have hact : ((checkForReplies enum cbRaises st c 0).1).monitoring_active = true := by
        rw [checkForReplies_active, h]
      have := ih ((checkForReplies enum cbRaises st c 0).1) hact
      simp [cyclesUntilStop, this.1, this.2]

/-- C9, witness: a three-cycle script whose first cycle errors and whose
second cycle carries a stop request executes exactly two cycles and leaves
the loop stopped. -/
theorem c9_only_stop_ends_loop_witness :
    ({ initPoller with monitoring_active := true } : PollerState).monitoring_active = true
    ∧ ((monitorLoop (fun l => l) (fun _ => false)
          { initPoller with monitoring_active := true }
          [(.error (), false), (.ok [], true), (.ok [], false)]).2
        = cyclesUntilStop [(.error (), false), (.ok [], true), (.ok [], false)]
      ∧ ((monitorLoop (fun l => l) (fun _ => false)
          { initPoller with monitoring_active := true }
          [(.error (), false), (.ok [], true), (.ok [], false)]).1.monitoring_active
        = !([((.error () : Except Unit (List EmailMessageM)), false),
             (.ok [], true), (.ok [], false)].any (·.2)))) :=
  ⟨rfl, c9_only_stop_ends_loop (fun l => l) (fun _ => false) _ _ rfl⟩

/-! ### Deduplication lemmas and claims C2, C10 -/

/-- Occurrences of an id in a list of ids. -/
def countOcc (x : String) : List String → Nat
  | [] => 0
  | y :: t => (if y = x then 1 else 0) + countOcc x t

/-- Ids of the replies a single dedup pass forwards. -/
def fwdIds (l : List EmailMessageM) (seen : List String) : List String :=
  ((filterNew l seen).1).map (·.message_id)

theorem countOcc_append (x : String) (a b : List String) :
    countOcc x (a ++ b) = countOcc x a + countOcc x b := by
  induction a with
  | nil => simp [countOcc]
  | cons y t ih => simp [countOcc, ih]; omega

theorem countOcc_eq_zero (x : String) (l : List String) :
    countOcc x l = 0 ↔ x ∉ l := by
  induction l with
  | nil => simp [countOcc]
  | cons y t ih =>
    by_cases hy : y = x
    · subst hy; simp [countOcc]
    · simp [countOcc, hy, ih, Ne.symm hy]

/-- After a dedup pass the seen-set is the old seen-set followed by the ids
just forwarded, in forwarding order: every forwarded id is added to the set
at the moment it is forwarded. -/
theorem filterNew_seen (l : List EmailMessageM) (seen : List String) :
    (filterNew l seen).2 = seen ++ fwdIds l seen := by
  induction l generalizing seen with
  | nil => simp [filterNew, fwdIds]
  | cons m rest ih =>
    by_cases hm : m.message_id ∈ seen
    · simp [filterNew, fwdIds, hm]
      simpa [fwdIds] using ih seen
    · simp only [filterNew, fwdIds, if_neg hm, List.map_cons]
      rw [show ((filterNew rest (seen ++ [m.message_id])).1.map (·.message_id))
            = fwdIds rest (seen ++ [m.message_id]) from rfl,
          ih (seen ++ [m.message_id]), List.append_assoc]
      rfl

/-- An id already in the seen-set is never forwarded by a dedup pass. -/
theorem countOcc_fwdIds_of_mem (l : List EmailMessageM) (seen : List String)
    (x : String) (hx : x ∈ seen) : countOcc x (fwdIds l seen) = 0 := by
  induction l generalizing seen with
  | nil => simp [filterNew, fwdIds, countOcc]
  | cons m rest ih =>
    by_cases hm : m.message_id ∈ seen
    · simpa [filterNew, fwdIds, hm] using ih seen hx
    · have hne : m.message_id ≠ x := fun h => hm (h ▸ hx)
      have hx' : x ∈ seen ++ [m.message_id] := List.mem_append_left _ hx
      simpa [filterNew, fwdIds, hm, countOcc, hne] using ih (seen ++ [m.message_id]) hx'

/-- A dedup pass forwards each id at most once. -/
theorem countOcc_fwdIds_le_one (l : List EmailMessageM) (seen : List String)
    (x : String) : countOcc x (fwdIds l seen) ≤ 1 := by
  induction l generalizing seen with
  | nil => simp [filterNew, fwdIds, countOcc]
  | cons m rest ih =>
    by_cases hm : m.message_id ∈ seen
    · simpa [filterNew, fwdIds, hm] using ih seen
    · by_cases hx : m.message_id = x
      · subst hx
        have : countOcc m.message_id (fwdIds rest (seen ++ [m.message_id])) = 0 :=
          countOcc_fwdIds_of_mem _ _ _
            (List.mem_append_right _ (List.mem_singleton.mpr rfl))
        simp [filterNew, fwdIds, hm, countOcc]
        exact this
      · simpa [filterNew, fwdIds, hm, countOcc, hx] using ih (seen ++ [m.message_id])

theorem filterNew_fst_length_le (l : List EmailMessageM) (seen : List String) :
    (filterNew l seen).1.length ≤ l.length := by
  induction l generalizing seen with
  | nil => simp [filterNew]
  | cons m rest ih =>
    by_cases hm : m.message_id ∈ seen
    · simp [filterNew, hm]
      exact le_trans (ih seen) (Nat.le_succ _)
    · simpa [filterNew, hm, Nat.succ_le_succ_iff] using ih (seen ++ [m.message_id])

/-- Size of a fetch outcome. -/
def batchSize : Except Unit (List EmailMessageM) → Nat
  | .error _ => 0
  | .ok l => l.length

/-- One successful cycle whose post-dedup seen-set is within the 100-entry
bound does not prune. -/
theorem checkForReplies_ok_no_prune (enum : List String → List String)
    (cbRaises : String → Bool) (st : PollerState) (l : List EmailMessageM)
    (now : Nat) (h : (filterNew l st.processed_messages).2.length ≤ 100) :
    checkForReplies enum cbRaises st (.ok l) now =
      ({ st with processed_messages := (filterNew l st.processed_messages).2,
                 check_count := st.check_count + 1,
                 last_check_time := some now },
       (filterNew l st.processed_messages).1) := by
  have hnc : ¬ ((st.check_count + 1) % 10 = 0
      ∧ 100 < (filterNew l st.processed_messages).2.length) :=
    fun hc => absurd hc.2 (not_lt.mpr h)
  simp only [checkForReplies]
  rw [if_neg hnc]

/-- C2, amended: as long as the seen-set stays within the 100-entry bound
over the whole run (so the every-10-cycles prune never discards history),
each distinct message identifier is forwarded to the reply handler at most
once across the run, and an identifier already in the seen-set at the start
is never forwarded at all.  Once pruning evicts an identifier, a
re-surfaced copy is forwarded again (see the counterexample). -/
theorem c2_dedup_within_retention (enum : List String → List String)
    (cbRaises : String → Bool) (st : PollerState)
    (cycles : List (Except Unit (List EmailMessageM))) (x : String)
    (hbound : st.processed_messages.length + (cycles.map batchSize).sum ≤ 100) :
    (x ∈ st.processed_messages →
      countOcc x (((runCycles enum cbRaises st cycles).2).map (·.message_id)) = 0)
    ∧ countOcc x (((runCycles enum cbRaises st cycles).2).map (·.message_id)) ≤ 1 := by
  induction cycles generalizing st with
  | nil => simp [runCycles, countOcc]
  | cons c rest ih =>
    cases c with
    | error e =>
      have hstep : checkForReplies enum cbRaises st (.error e) 0 = (st, []) := rfl
      have hb : st.processed_messages.length + (rest.map batchSize).sum ≤ 100 := by
        simpa [batchSize] using hbound
      simpa [runCycles, hstep] using ih st hb
    | ok l =>
      have hlenfst : (fwdIds l st.processed_messages).length ≤ l.length := by
        simpa [fwdIds] using filterNew_fst_length_le l st.processed_messages
      have hseen : (filterNew l st.processed_messages).2
          = st.processed_messages ++ fwdIds l st.processed_messages :=
        filterNew_seen l st.processed_messages
      have hlen2 : (filterNew l st.processed_messages).2.length ≤ 100 := by
        rw [hseen, List.length_append]
        have : l.length ≤ (List.map batchSize (Except.ok l :: rest)).sum := by
          simp [batchSize]
        omega
      have hstep := checkForReplies_ok_no_prune enum cbRaises st l 0 hlen2
      have hb1 : ((filterNew l st.processed_messages).2).length
          + (rest.map batchSize).sum ≤ 100 := by
        rw [hseen, List.length_append]
        have hsum : (List.map batchSize (Except.ok l :: rest)).sum
            = l.length + (rest.map batchSize).sum := by simp [batchSize]
        omega
      have ihs := ih ({ st with
          processed_messages := (filterNew l st.processed_messages).2,
          check_count := st.check_count + 1,
          last_check_time := some 0 }) hb1
      constructor
      · intro hx
        have h1 : countOcc x (fwdIds l st.processed_messages) = 0 :=
          countOcc_fwdIds_of_mem l st.processed_messages x hx
        have hx1 : x ∈ (filterNew l st.processed_messages).2 := by
          rw [hseen]; exact List.mem_append_left _ hx
        have h2 := ihs.1 hx1
        simp only [runCycles, hstep, List.map_append, countOcc_append]
        simp only [show ((filterNew l st.processed_messages).1.map (·.message_id))
            = fwdIds l st.processed_messages from rfl]
        omega
      · simp only [runCycles, hstep, List.map_append, countOcc_append]
        simp only [show ((filterNew l st.processed_messages).1.map (·.message_id))
            = fwdIds l st.processed_messages from rfl]
        by_cases hxf : x ∈ fwdIds l st.processed_messages
        · have hx1 : x ∈ (filterNew l st.processed_messages).2 := by
            rw [hseen]; exact List.mem_append_right _ hxf
          have h2 := ihs.1 hx1
          have h1 := countOcc_fwdIds_le_one l st.processed_messages x
          omega
        · have h1 : countOcc x (fwdIds l st.processed_messages) = 0 :=
            (countOcc_eq_zero _ _).mpr hxf
          have h2 := ihs.2
          omega

/-- A minimal reply carrying only an id (all other fields inert). -/
def mkMsg (i : String) : EmailMessageM :=
  { message_id := i, from_email := "", from_name := "", subject := "",
    content := "", received_date := 0, is_reply := true, timesheet_date := none }

/-- C2, witness: a two-cycle run over ids `a, b, b` starting with `a`
already seen forwards `b` once and `a` never. -/
theorem c2_dedup_within_retention_witness :
    ({ initPoller with processed_messages := ["a"] } : PollerState).processed_messages.length
      + (([.ok [mkMsg "a", mkMsg "b"], .ok [mkMsg "b"]]
          : List (Except Unit (List EmailMessageM))).map batchSize).sum ≤ 100
    ∧ (("a" ∈ ({ initPoller with processed_messages := ["a"] } : PollerState).processed_messages →
        countOcc "a" (((runCycles (fun l => l) (fun _ => false)
          { initPoller with processed_messages := ["a"] }
          [.ok [mkMsg "a", mkMsg "b"], .ok [mkMsg "b"]]).2).map (·.message_id)) = 0)
      ∧ countOcc "a" (((runCycles (fun l => l) (fun _ => false)
          { initPoller with processed_messages := ["a"] }
          [.ok [mkMsg "a", mkMsg "b"], .ok [mkMsg "b"]]).2).map (·.message_id)) ≤ 1) :=
  ⟨by decide, c2_dedup_within_retention (fun l => l) (fun _ => false)
    { initPoller with processed_messages := ["a"] }
    [.ok [mkMsg "a", mkMsg "b"], .ok [mkMsg "b"]] "a" (by decide)⟩

/-- Seen ids `x0 … x100` for the pruning counterexample. -/
def xMsgs : List EmailMessageM :=
  ((List.range 101).map (fun i => "x" ++ Nat.repr i)).map mkMsg

/-- Eleven-cycle script: a 101-message batch, then eight empty fetches,
then the empty fetch at whose bookkeeping point (cycle 10) the prune fires,
then a re-delivery of the first message. -/
def pruneThenRedeliver : List (Except Unit (List EmailMessageM)) :=
  .ok xMsgs :: (List.replicate 9 (.ok []) ++ [.ok [mkMsg "x0"]])

set_option maxRecDepth 100000 in
/-- C2, counterexample: across this run the identifier `x0` is forwarded to
the reply handler twice — the prune at cycle 10 (seen-set 101 > 100) evicts
it, so its re-delivery at cycle 11 is treated as new.  The claim that each
distinct identifier is forwarded at most once across the whole run is
false. -/
theorem c2_forwarded_twice_after_prune :
    countOcc "x0" (((runCycles (fun l => l) (fun _ => false) initPoller
      pruneThenRedeliver).2).map (·.message_id)) = 2 := by
  decide

/-- C10, amended: (i) a fetch error makes `check_for_replies` return the
empty list with the state untouched — the error is swallowed, never
propagated; (ii) the per-message reply callback's outcome
(raise or return) affects neither the state nor the returned list, since
`_process_reply` catches callback exceptions; (iii) every forwarded id is
appended to the seen-set at the moment it is forwarded, before its callback
runs; (iv) an id in the seen-set at the start of a cycle — in particular
one recorded when its handler raised earlier and not yet pruned — is not
forwarded in that cycle. -/
theorem c10_seen_before_callback (enum : List String → List String)
    (cbRaises cbOther : String → Bool) (st : PollerState)
    (l : List EmailMessageM) (x : String) (e : Unit) (now : Nat) :
    checkForReplies enum cbRaises st (.error e) now = (st, [])
    ∧ checkForReplies enum cbRaises st (.ok l) now
        = checkForReplies enum cbOther st (.ok l) now
    ∧ (filterNew l st.processed_messages).2
        = st.processed_messages ++ fwdIds l st.processed_messages
    ∧ (x ∈ st.processed_messages →
        x ∉ ((checkForReplies enum cbRaises st (.ok l) now).2).map (·.message_id)) := by
  refine ⟨rfl, rfl, filterNew_seen l st.processed_messages, ?_⟩
  intro hx
  have h0 : countOcc x (fwdIds l st.processed_messages) = 0 :=
    countOcc_fwdIds_of_mem l st.processed_messages x hx
  have hnot : x ∉ fwdIds l st.processed_messages := (countOcc_eq_zero _ _).mp h0
  intro hmem
  exact hnot (by
    have : ((checkForReplies enum cbRaises st (.ok l) now).2) = (filterNew l st.processed_messages).1 := by
      simp only [checkForReplies]
    rw [this] at hmem
    exact hmem)

/-- C10, witness with `x` already seen and a batch re-offering `x`. -/
theorem c10_seen_before_callback_witness :
    "x" ∈ ({ initPoller with processed_messages := ["x"] } : PollerState).processed_messages
    ∧ (checkForReplies (fun l => l) (fun _ => true)
          { initPoller with processed_messages := ["x"] } (.error ()) 0
        = ({ initPoller with processed_messages := ["x"] }, [])
      ∧ checkForReplies (fun l => l) (fun _ => true)
          { initPoller with processed_messages := ["x"] } (.ok [mkMsg "x", mkMsg "y"]) 0
        = checkForReplies (fun l => l) (fun _ => false)
          { initPoller with processed_messages := ["x"] } (.ok [mkMsg "x", mkMsg "y"]) 0
      ∧ (filterNew [mkMsg "x", mkMsg "y"]
          ({ initPoller with processed_messages := ["x"] } : PollerState).processed_messages).2
        = ({ initPoller with processed_messages := ["x"] } : PollerState).processed_messages
          ++ fwdIds [mkMsg "x", mkMsg "y"]
              ({ initPoller with processed_messages := ["x"] } : PollerState).processed_messages
      ∧ ("x" ∈ ({ initPoller with processed_messages := ["x"] } : PollerState).processed_messages →
          "x" ∉ ((checkForReplies (fun l => l) (fun _ => true)
            { initPoller with processed_messages := ["x"] }
            (.ok [mkMsg "x", mkMsg "y"]) 0).2).map (·.message_id))) :=
  ⟨by decide, c10_seen_before_callback (fun l => l) (fun _ => true) (fun _ => false)
    { initPoller with processed_messages := ["x"] } [mkMsg "x", mkMsg "y"] "x" () 0⟩

/-- Messages `y0 … y100` whose `y0` handler raises. -/
def yMsgs : List EmailMessageM :=
  ((List.range 101).map (fun i => "y" ++ Nat.repr i)).map mkMsg

/-- Script delivering `y0 … y100`, idling up to the cycle-10 prune, then
re-offering `y0`. -/
def raiseThenRedeliver : List (Except Unit (List EmailMessageM)) :=
  .ok yMsgs :: (List.replicate 9 (.ok []) ++ [.ok [mkMsg "y0"]])

set_option maxRecDepth 100000 in
/-- C10, counterexample: the message `y0`, whose reply handler raises, is
forwarded to the handler twice across the run — the cycle-10 prune evicts
its id, so the cycle-11 re-delivery is forwarded again.  At-most-once
delivery for a message whose handler raised therefore fails once pruning
has discarded the id. -/
theorem c10_raised_message_forwarded_twice :
    (fun s => s == "y0") "y0" = true
    ∧ countOcc "y0" (((runCycles (fun l => l) (fun s => s == "y0") initPoller
        raiseThenRedeliver).2).map (·.message_id)) = 2 := by
  exact ⟨rfl, by decide⟩

/-! ### Engagement case table (`employee_engagement_agent.py`) -/

/-- The `EmailReply` pydantic model. -/
structure EmailReplyM where
  employee_email : String
  employee_name : String
  reply_date : Nat
  subject : String
  content : String
  timesheet_date : String
  reason_provided : Bool
  reason_type : Option String
  reason_valid : Bool
deriving DecidableEq

/-- The `EngagementStatus` pydantic model. -/
structure EngagementStatusM where
  employee_email : String
  employee_name : String
  timesheet_date : String
  status : String
  reply_count : Nat
  last_email_sent : Option Nat
  last_reply : Option EmailReplyM
deriving DecidableEq

/-- The `"{email}_{date}"` dict key. -/
def statusKey (email date : String) : String := email ++ "_" ++ date

/-- The `self.engagement_status` dict, as an insertion-ordered association
list with unique keys. -/
abbrev EngagementTable := List (String × EngagementStatusM)

/-- Dict read (`engagement_status.get(key)` / `key in engagement_status`). -/
def lookupStatus (t : EngagementTable) (k : String) : Option EngagementStatusM :=
  (t.find? (fun p => p.1 == k)).map (·.2)

/-- Dict write (`engagement_status[key] = v`): replace in place or append. -/
def setStatus : EngagementTable → String → EngagementStatusM → EngagementTable
  | [], k, v => [(k, v)]
  | (k', v') :: rest, k, v =>
    if k' == k then (k, v) :: rest else (k', v') :: setStatus rest k v

/-- `_handle_email_reply(email_message)`, with the outcome of
`_validate_reason_content` (an LLM call) as parameters: build the
`EmailReply`, then create the engagement record in status `replied` with
`reply_count = 1`, or bump `reply_count` and overwrite the status with
`replied` — unconditionally, whatever the previous status was. -/
def handleEmailReply (t : EngagementTable) (msg : EmailMessageM)
    (reason_valid : Bool) (reason_type : Option String) : EngagementTable :=
  let reply : EmailReplyM :=
    { employee_email := msg.from_email, employee_name := msg.from_name,
      reply_date := msg.received_date, subject := msg.subject,
      content := msg.content,
      timesheet_date := msg.timesheet_date.getD "unknown",
      reason_provided := decide (10 < (pyStrip msg.content.toList).length),
      reason_type := reason_type, reason_valid := reason_valid }
  let key := statusKey reply.employee_email reply.timesheet_date
  match lookupStatus t key with
  | none => setStatus t key
      { employee_email := reply.employee_email,
        employee_name := reply.employee_name,
        timesheet_date := reply.timesheet_date, status := "replied",
        reply_count := 1, last_email_sent := none, last_reply := some reply }
  | some prev => setStatus t key
      { prev with reply_count := prev.reply_count + 1,
                  last_reply := some reply, status := "replied" }

/-- `_escalate_to_compliance_impl(employee_email, timesheet_date)`: missing
record, missing reply or invalid reason return an explanatory string with
the table untouched; otherwise the status becomes `escalated`.  (Returned
strings stand for the formatted messages of the source.) -/
def escalateToCompliance (t : EngagementTable) (email date : String) :
    EngagementTable × String :=
  match lookupStatus t (statusKey email date) with
  | none => (t, "No engagement record found")
  | some st =>
    match st.last_reply with
    | none => (t, "Cannot escalate: no valid reason yet")
    | some r =>
      if r.reason_valid then
        (setStatus t (statusKey email date) { st with status := "escalated" },
         "Escalated to Compliance Agent")
      else (t, "Cannot escalate: no valid reason yet")

/-- `_send_followup_email_impl(employee_email, timesheet_date)`: missing
record returns unchanged; `reply_count >= 3` (the bound is hard-coded, not
read from `CompanyPolicy.max_followup_attempts`) refuses with a message and
changes nothing; a successful send sets status `pending` and stamps
`last_email_sent`; a failed send changes nothing. -/
def sendFollowupEmail (t : EngagementTable) (email date : String)
    (sendSuccess : Bool) (now : Nat) : EngagementTable × String :=
  match lookupStatus t (statusKey email date) with
  | none => (t, "No engagement record found")
  | some st =>
    if 3 ≤ st.reply_count then (t, "Maximum follow-up attempts reached")
    else if sendSuccess then
      (setStatus t (statusKey email date)
        { st with last_email_sent := some now, status := "pending" },
       "Follow-up email sent")
    else (t, "Failed to send follow-up email")

/-- The operations that mutate the engagement table. -/
inductive CaseOp where
  | reply (msg : EmailMessageM) (reason_valid : Bool) (reason_type : Option String)
  | followup (email date : String) (sendSuccess : Bool) (now : Nat)
  | escalate (email date : String)

/-- Apply one operation to the table. -/
def applyOp (t : EngagementTable) : CaseOp → EngagementTable
  | .reply m rv rt => handleEmailReply t m rv rt
  | .followup e d s n => (sendFollowupEmail t e d s n).1
  | .escalate e d => (escalateToCompliance t e d).1

/-- Run a sequence of operations from a table. -/
def runOps : EngagementTable → List CaseOp → EngagementTable
  | t, [] => t
  | t, op :: rest => runOps (applyOp t op) rest

theorem lookup_setStatus_self (t : EngagementTable) (k : String)
    (v : EngagementStatusM) : lookupStatus (setStatus t k v) k = some v := by
  induction t with
  | nil => simp [setStatus, lookupStatus, List.find?]
  | cons p rest ih =>
    obtain ⟨k', v'⟩ := p
    by_cases hk : k' == k
    · simp [setStatus, hk, lookupStatus, List.find?]
    · simp only [setStatus, hk]
      rw [if_neg (by simpa using hk)]
      simpa [lookupStatus, List.find?, hk] using ih

theorem mem_setStatus (t : EngagementTable) (k : String) (v : EngagementStatusM)
    (p : String × EngagementStatusM) (hp : p ∈ setStatus t k v) :
    p ∈ t ∨ p = (k, v) := by
  induction t with
  | nil => simpa [setStatus] using hp
  | cons q rest ih =>
    obtain ⟨k', v'⟩ := q
    by_cases hk : k' == k
    · rw [setStatus, if_pos hk] at hp
      rcases List.mem_cons.mp hp with h | h
      · right; exact h
      · left; exact List.mem_cons_of_mem _ h
    · rw [setStatus, if_neg hk] at hp
      rcases List.mem_cons.mp hp with h | h
      · left; exact h ▸ List.mem_cons_self _ _
      · rcases ih h with h' | h'
        · left; exact List.mem_cons_of_mem _ h'
        · right; exact h'

theorem lookupStatus_mem (t : EngagementTable) (k : String)
    (v : EngagementStatusM) (h : lookupStatus t k = some v) :
    ∃ p ∈ t, p.2 = v := by
  induction t with
  | nil => simp [lookupStatus, List.find?] at h
  | cons q rest ih =>
    by_cases hk : q.1 == k
    · refine ⟨q, List.mem_cons_self _ _, ?_⟩
      simpa [lookupStatus, List.find?, hk] using h
    · have h' : lookupStatus rest k = some v := by
        simpa [lookupStatus, List.find?, hk] using h
      obtain ⟨p, hp, hv⟩ := ih h'
      exact ⟨p, List.mem_cons_of_mem _ hp, hv⟩

/-- The statuses the code can ever store. -/
def storableStatus (s : String) : Prop :=
  s = "replied" ∨ s = "pending" ∨ s = "escalated"

theorem applyOp_storable (t : EngagementTable) (op : CaseOp)
    (h : ∀ p ∈ t, storableStatus p.2.status) :
    ∀ p ∈ applyOp t op, storableStatus p.2.status := by
  cases op with
  | reply m rv rt =>
    intro p hp
    rw [applyOp, handleEmailReply] at hp
    rcases hmatch : lookupStatus t
        (statusKey m.from_email (m.timesheet_date.getD "unknown")) with _ | prev
    all_goals rw [hmatch] at hp
    · rcases mem_setStatus _ _ _ _ hp with h' | h'
      · exact h p h'
      · rw [h']; left; rfl
    · rcases mem_setStatus _ _ _ _ hp with h' | h'
      · exact h p h'
      · rw [h']; left; rfl
  | followup e d s n =>
    intro p hp
    rw [applyOp] at hp
    rcases hmatch : lookupStatus t (statusKey e d) with _ | prev
    · simp only [sendFollowupEmail, hmatch] at hp
      exact h p hp
    · simp only [sendFollowupEmail, hmatch] at hp
      by_cases h3 : 3 ≤ prev.reply_count
      · rw [if_pos h3] at hp
        exact h p hp
      · rw [if_neg h3] at hp
        cases s with
        | true =>
          simp only [if_true] at hp
          rcases mem_setStatus _ _ _ _ hp with h' | h'
          · exact h p h'
          · rw [h']; right; left; rfl
        | false =>
          simp at hp
          exact h p hp
  | escalate e d =>
    intro p hp
    rw [applyOp] at hp
    rcases hmatch : lookupStatus t (statusKey e d) with _ | prev
    · simp only [escalateToCompliance, hmatch] at hp
      exact h p hp
    · rcases hr : prev.last_reply with _ | r
      · simp only [escalateToCompliance, hmatch, hr] at hp
        exact h p hp
      · simp only [escalateToCompliance, hmatch, hr] at hp
        by_cases hv : r.reason_valid
        · rw [if_pos hv] at hp
          rcases mem_setStatus _ _ _ _ hp with h' | h'
          · exact h p h'
          · rw [h']; right; right; rfl
        · simp only [hv, if_false] at hp
          exact h p hp

theorem runOps_storable (ops : List CaseOp) (t : EngagementTable)
    (h : ∀ p ∈ t, storableStatus p.2.status) :
    ∀ p ∈ runOps t ops, storableStatus p.2.status := by
  induction ops generalizing t with
  | nil => exact h
  | cons op rest ih => exact ih (applyOp t op) (applyOp_storable t op h)

/-! ### Claims C4, C5 -/

/-- A case already in state `escalated`. -/
def escCase : EngagementStatusM :=
  { employee_email := "a@x", employee_name := "A", timesheet_date := "2025-08-08",
    status := "escalated", reply_count := 1, last_email_sent := none,
    last_reply := none }

/-- A reply message for that case's employee and date. -/
def replyMsg : EmailMessageM :=
  { message_id := "m1", from_email := "a@x", from_name := "A",
    subject := "Re: Timesheet Issue - 2025-08-08",
    content := "I was sick with a fever", received_date := 0, is_reply := true,
    timesheet_date := some "2025-08-08" }

/-- C4, counterexample: applying a reply event to a case in state
`escalated` (not `replied`) raises no error and silently overwrites the
state to `replied` — the claimed InvalidTransition rejection with the case
unchanged does not happen. -/
theorem c4_reply_overwrites_escalated :
    (lookupStatus [(statusKey "a@x" "2025-08-08", escCase)]
        (statusKey "a@x" "2025-08-08")).map (·.status) = some "escalated"
    ∧ (lookupStatus (handleEmailReply [(statusKey "a@x" "2025-08-08", escCase)]
        replyMsg true (some "sick"))
        (statusKey "a@x" "2025-08-08")).map (·.status) = some "replied" := by
  refine ⟨?_, ?_⟩ <;> decide

/-- C4, amended: there is no InvalidTransition error in the code.  A reply
event is applied unconditionally — whatever the case's prior state, after
`_handle_email_reply` the case at the message's key has status `replied`.
The only guarded operation is escalation: on a case whose last reply is
missing or not valid, `_escalate_to_compliance_impl` leaves the table
unchanged and reports the refusal in its returned message instead of
escalating. -/
theorem c4_transitions_unguarded (t : EngagementTable) (msg : EmailMessageM)
    (rv : Bool) (rt : Option String) (email date : String)
    (st : EngagementStatusM)
    (hlk : lookupStatus t (statusKey email date) = some st)
    (hnv : st.last_reply.map (·.reason_valid) ≠ some true) :
    (lookupStatus (handleEmailReply t msg rv rt)
        (statusKey msg.from_email (msg.timesheet_date.getD "unknown"))).map (·.status)
      = some "replied"
    ∧ (escalateToCompliance t email date).1 = t
    ∧ (escalateToCompliance t email date).2 ≠ "Escalated to Compliance Agent" := by
  have hesc : escalateToCompliance t email date
      = (t, "Cannot escalate: no valid reason yet") := by
    rcases hr : st.last_reply with _ | r
    · simp only [escalateToCompliance, hlk, hr]
    · rw [hr] at hnv
      have hrv : r.reason_valid = false := by
        cases hcase : r.reason_valid
        · rfl
        · exact absurd (by simp [hcase]) hnv
      simp only [escalateToCompliance, hlk, hr, hrv, Bool.false_eq_true, if_false]
  have hne : ("Cannot escalate: no valid reason yet" : String)
      ≠ "Escalated to Compliance Agent" := by decide
  refine ⟨?_, by rw [hesc], by rw [hesc]; exact hne⟩
  rcases hm : lookupStatus t
      (statusKey msg.from_email (msg.timesheet_date.getD "unknown")) with _ | prev
  · simp only [handleEmailReply, hm, lookup_setStatus_self]
    rfl
  · simp only [handleEmailReply, hm, lookup_setStatus_self]
    rfl

/-- C4, witness: the escalated case of the counterexample, whose last reply
is absent. -/
theorem c4_transitions_unguarded_witness :
    lookupStatus [(statusKey "a@x" "2025-08-08", escCase)]
        (statusKey "a@x" "2025-08-08") = some escCase
    ∧ escCase.last_reply.map (·.reason_valid) ≠ some true
    ∧ ((lookupStatus (handleEmailReply [(statusKey "a@x" "2025-08-08", escCase)]
          replyMsg true (some "sick"))
          (statusKey replyMsg.from_email (replyMsg.timesheet_date.getD "unknown"))).map (·.status)
        = some "replied"
      ∧ (escalateToCompliance [(statusKey "a@x" "2025-08-08", escCase)]
          "a@x" "2025-08-08").1 = [(statusKey "a@x" "2025-08-08", escCase)]
      ∧ (escalateToCompliance [(statusKey "a@x" "2025-08-08", escCase)]
          "a@x" "2025-08-08").2 ≠ "Escalated to Compliance Agent") :=
  ⟨by decide, by decide,
    c4_transitions_unguarded [(statusKey "a@x" "2025-08-08", escCase)]
      replyMsg true (some "sick") "a@x" "2025-08-08" escCase
      (by decide) (by decide)⟩

/-- A reply whose content is too short to count as a provided reason and
whose classification is invalid. -/
def invalidMsg : EmailMessageM :=
  { message_id := "m2", from_email := "b@x", from_name := "B",
    subject := "Re: Timesheet Issue - 2025-08-09", content := "forgot",
    received_date := 0, is_reply := true, timesheet_date := some "2025-08-09" }

/-- C5, counterexample: an invalid classification does not transition the
case to `needs_followup` (nor ever to `escalated_unresolved`): handling a
reply validated as invalid leaves the case in state `replied`. -/
theorem c5_invalid_classification_stays_replied :
    (lookupStatus (handleEmailReply [] invalidMsg false none)
        (statusKey "b@x" "2025-08-09")).map (·.status) = some "replied"
    ∧ ("replied" : String) ≠ "needs_followup"
    ∧ ("replied" : String) ≠ "escalated_unresolved" := by
  refine ⟨?_, ?_, ?_⟩ <;> decide

/-- C5, amended: the states `escalated_unresolved` and `needs_followup` do
not exist in the code — no sequence of reply, follow-up or escalation
operations ever stores a case in either state (every stored status is
`replied`, `pending` or `escalated`).  The only follow-up bound is in
`_send_followup_email_impl`: once `reply_count >= 3` (the 3 is hard-coded;
`CompanyPolicy.max_followup_attempts` is never consulted) it refuses with a
message and leaves the table unchanged, with no state transition. -/
theorem c5_escalated_unresolved_unreachable (ops : List CaseOp) (k : String)
    (st : EngagementStatusM)
    (h : lookupStatus (runOps [] ops) k = some st) :
    st.status ≠ "escalated_unresolved" ∧ st.status ≠ "needs_followup"
    ∧ ∀ (t : EngagementTable) (e d : String) (s : Bool) (n : Nat)
        (st' : EngagementStatusM),
        lookupStatus t (statusKey e d) = some st' → 3 ≤ st'.reply_count →
        sendFollowupEmail t e d s n = (t, "Maximum follow-up attempts reached") := by
  obtain ⟨p, hp, hv⟩ := lookupStatus_mem _ _ _ h
  have hgood := runOps_storable ops [] (by intro q hq; cases hq) p hp
  rw [hv] at hgood
  refine ⟨?_, ?_, ?_⟩
  · rcases hgood with h1 | h1 | h1 <;> rw [h1] <;> decide
  · rcases hgood with h1 | h1 | h1 <;> rw [h1] <;> decide
  · intro t e d s n st' hlk h3
    simp only [sendFollowupEmail, hlk]
    rw [if_pos h3]

/-- The engagement record created by handling `invalidMsg` on an empty
table. -/
def invalidCase : EngagementStatusM :=
  { employee_email := "b@x", employee_name := "B", timesheet_date := "2025-08-09",
    status := "replied", reply_count := 1, last_email_sent := none,
    last_reply := some
      { employee_email := "b@x", employee_name := "B", reply_date := 0,
        subject := "Re: Timesheet Issue - 2025-08-09", content := "forgot",
        timesheet_date := "2025-08-09", reason_provided := false,
        reason_type := none, reason_valid := false } }

/-- C5, witness: the one-reply run reaching `invalidCase`. -/
theorem c5_escalated_unresolved_unreachable_witness :
    lookupStatus (runOps [] [.reply invalidMsg false none])
        (statusKey "b@x" "2025-08-09") = some invalidCase
    ∧ (invalidCase.status ≠ "escalated_unresolved"
      ∧ invalidCase.status ≠ "needs_followup"
      ∧ ∀ (t : EngagementTable) (e d : String) (s : Bool) (n : Nat)
          (st' : EngagementStatusM),
          lookupStatus t (statusKey e d) = some st' → 3 ≤ st'.reply_count →
          sendFollowupEmail t e d s n = (t, "Maximum follow-up attempts reached")) :=
  ⟨by decide,
    c5_escalated_unresolved_unreachable [.reply invalidMsg false none]
      (statusKey "b@x" "2025-08-09") invalidCase (by decide)⟩
